import Mathlib

/-!
Shallow embedding of revng's calling-convention-recovery core:
the `model::RegisterState` lattice and its `combine` operator
(lib/ABIAnalyses, `src/unnamed/part_000`), the `FunctionSummary` /
`FunctionAnalysisResults` oracle (include/revng/StackAnalysis/StackAnalysis.h)
and the result-finalization part of `analyzeOutlinedFunction`.
-/

namespace ABIAnalyses

/-- `model::RegisterState::Values` (include/revng/Model/Register.h),
constructors in the C++ declaration order. -/
inductive RegisterState where
  | Invalid
  | No
  | NoOrDead
  | Dead
  | Yes
  | YesOrDead
  | Maybe
  | Contradiction
deriving DecidableEq, Repr, Fintype

open RegisterState

/-- `ABIAnalyses::combine` (src/unnamed/part_000, lines 208-306), branch by
branch.  `revng_abort()` is embedded as `none`; every `return` in the C++
becomes `some`.  Note that the C++ `Maybe` row returns `RH` unchecked and the
`Contradiction` row returns `Contradiction` unchecked, so for those two
left operands an `Invalid` right operand does not abort. -/
def combine (LH RH : RegisterState) : Option RegisterState :=
  match LH with
  | Yes =>
    match RH with
    | Yes | YesOrDead | Maybe => some Yes
    | No | NoOrDead | Dead | Contradiction => some Contradiction
    | Invalid => none
  | YesOrDead =>
    match RH with
    | Yes => some Yes
    | Maybe | YesOrDead => some YesOrDead
    | Dead | NoOrDead => some Dead
    | No | Contradiction => some Contradiction
    | Invalid => none
  | No =>
    match RH with
    | No | NoOrDead | Maybe => some No
    | Yes | YesOrDead | Dead | Contradiction => some Contradiction
    | Invalid => none
  | NoOrDead =>
    match RH with
    | No => some No
    | Maybe | NoOrDead => some NoOrDead
    | Dead | YesOrDead => some Dead
    | Yes | Contradiction => some Contradiction
    | Invalid => none
  | Dead =>
    match RH with
    | Dead | Maybe | NoOrDead | YesOrDead => some Dead
    | No | Yes | Contradiction => some Contradiction
    | Invalid => none
  | Maybe => some RH
  | Contradiction => some Contradiction
  | Invalid => none

/-- The table of spec section 4.1, written from the spec's seven rows
(a second definition, to be compared with `combine` for the refinement
claim C1).  It is only stated for the seven non-Invalid values; on
`Invalid` operands it is given a junk value `Invalid`. -/
def combineSpecTable (a b : RegisterState) : RegisterState :=
  match a, b with
  | Yes, Yes | Yes, YesOrDead | Yes, Maybe => Yes
  | Yes, No | Yes, NoOrDead | Yes, Dead | Yes, Contradiction => Contradiction
  | YesOrDead, Yes => Yes
  | YesOrDead, Maybe | YesOrDead, YesOrDead => YesOrDead
  | YesOrDead, Dead | YesOrDead, NoOrDead => Dead
  | YesOrDead, No | YesOrDead, Contradiction => Contradiction
  | No, No | No, NoOrDead | No, Maybe => No
  | No, Yes | No, YesOrDead | No, Dead | No, Contradiction => Contradiction
  | NoOrDead, No => No
  | NoOrDead, Maybe | NoOrDead, NoOrDead => NoOrDead
  | NoOrDead, Dead | NoOrDead, YesOrDead => Dead
  | NoOrDead, Yes | NoOrDead, Contradiction => Contradiction
  | Dead, Dead | Dead, Maybe | Dead, NoOrDead | Dead, YesOrDead => Dead
  | Dead, No | Dead, Yes | Dead, Contradiction => Contradiction
  | Maybe, b => b
  | Contradiction, _ => Contradiction
  | Invalid, _ | _, Invalid => Invalid

end ABIAnalyses

namespace StackAnalysis

/-- `model::FunctionType::Values` (src/unnamed/part_003, lines 274-281),
constructors in the C++ declaration order, so that the C++ `<=` between
enum values is `<=` on `toNat`. -/
inductive FunctionType where
  | Invalid
  | Regular
  | NoReturn
  | Fake
deriving DecidableEq, Repr, Fintype

/-- Numeric value of the C++ enumerator, used by `operator<=`. -/
def FunctionType.toNat : FunctionType → Nat
  | .Invalid => 0
  | .Regular => 1
  | .NoReturn => 2
  | .Fake => 3

/-- The C++ `<=` on `model::FunctionType::Values` compares enumerator
values. -/
def FunctionType.le (a b : FunctionType) : Bool :=
  a.toNat ≤ b.toNat

/-- `model::FunctionEdgeType::Values` (src/unnamed/part_003, lines 45-72). -/
inductive FunctionEdgeType where
  | Invalid
  | DirectBranch
  | FakeFunctionCall
  | FakeFunctionReturn
  | FunctionCall
  | IndirectCall
  | Return
  | BrokenReturn
  | IndirectTailCall
  | LongJmp
  | Killer
  | Unreachable
deriving DecidableEq, Repr

/-- `StackAnalysis::FunctionSummary` (StackAnalysis.h, lines 70-122).
Pointers (`llvm::GlobalVariable *`, `llvm::CallInst *`,
`llvm::Function *`) are modelled as natural numbers; the nullable
`FakeFunction` pointer as `Option Nat`; `std::set<GlobalVariable *>`
as `Finset Nat`. -/
structure FunctionSummary where
  type : FunctionType
  clobberedRegisters : Finset Nat
  result : List (Nat × FunctionEdgeType)
  electedFSO : Option Nat
  fakeFunction : Option Nat
deriving DecidableEq

/-- `FunctionSummary::compare(Old, New)` (StackAnalysis.h, lines 99-107):
if the types are equal it returns
`std::includes(Old.ClobberedRegisters, New.ClobberedRegisters)`, i.e.
`New.ClobberedRegisters ⊆ Old.ClobberedRegisters` on sorted `std::set`s;
otherwise it returns `New.Type <= Old.Type` on enumerator values. -/
def FunctionSummary.compare (Old New : FunctionSummary) : Bool :=
  if New.type = Old.type then
    decide (New.clobberedRegisters ⊆ Old.clobberedRegisters)
  else
    FunctionType.le New.type Old.type

/-- `StackAnalysis::FunctionAnalysisResults` (StackAnalysis.h, lines
124-171).  The `std::map<llvm::BasicBlock *, FunctionSummary>
FunctionsBucket` is modelled as an association list keyed by the basic
block (a `Nat`); `DefaultSummary` is the summary given at
construction. -/
structure FunctionAnalysisResults where
  functionsBucket : List (Nat × FunctionSummary)
  defaultSummary : FunctionSummary
deriving DecidableEq

namespace FunctionAnalysisResults

/-- `FunctionAnalysisResults::get` (StackAnalysis.h, lines 130-135):
the bucket entry when present, the default summary otherwise. -/
def get (R : FunctionAnalysisResults) (BB : Nat) : FunctionSummary :=
  match R.functionsBucket.lookup BB with
  | some S => S
  | none => R.defaultSummary

/-- `getFunctionType` (StackAnalysis.h, lines 141-143). -/
def getFunctionType (R : FunctionAnalysisResults) (BB : Nat) : FunctionType :=
  (R.get BB).type

/-- `isFakeFunction` (StackAnalysis.h, lines 145-147). -/
def isFakeFunction (R : FunctionAnalysisResults) (BB : Nat) : Bool :=
  R.getFunctionType BB = FunctionType.Fake

/-- `getFakeFunction` (StackAnalysis.h, lines 149-151). -/
def getFakeFunction (R : FunctionAnalysisResults) (BB : Nat) : Option Nat :=
  (R.get BB).fakeFunction

/-- `getRegistersClobbered` (StackAnalysis.h, lines 153-155). -/
def getRegistersClobbered (R : FunctionAnalysisResults) (BB : Nat) :
    Finset Nat :=
  (R.get BB).clobberedRegisters

/-- `getElectedFSO` (StackAnalysis.h, lines 157-159). -/
def getElectedFSO (R : FunctionAnalysisResults) (BB : Nat) : Option Nat :=
  (R.get BB).electedFSO

/-- Replace the value stored for key `BB` in an association list
(the effect of `It->second = std::move(F)` on a `std::map` iterator). -/
def assignExisting (L : List (Nat × FunctionSummary)) (BB : Nat)
    (F : FunctionSummary) : List (Nat × FunctionSummary) :=
  L.map (fun p => if p.1 = BB then (BB, F) else p)

/-- `registerFunction` (StackAnalysis.h, lines 161-170).  If the bucket
already holds a summary for `BB`, `Changed := compare(Old, New)` is
computed, the stored summary is unconditionally overwritten with the
candidate, and `!Changed` is returned; otherwise the candidate is
inserted and `true` is returned.  Returns the C++ return value paired
with the updated object. -/
def registerFunction (R : FunctionAnalysisResults) (BB : Nat)
    (F : FunctionSummary) : Bool × FunctionAnalysisResults :=
  match R.functionsBucket.lookup BB with
  | some Old =>
    (!(FunctionSummary.compare Old F),
     { R with functionsBucket := assignExisting R.functionsBucket BB F })
  | none =>
    (true, { R with functionsBucket := (BB, F) :: R.functionsBucket })

end FunctionAnalysisResults

end StackAnalysis

namespace ABIAnalyses

/-- `ABIAnalyses::RegisterStateMap` (include/revng/ABIAnalyses/ABIAnalysis.h):
a map from CSV (`llvm::GlobalVariable *`, modelled as `Nat`) to
`model::RegisterState::Values`, modelled as an association list. -/
abbrev RegisterStateMap := List (Nat × RegisterState)

/-- `ABIAnalysesResults::CallSiteResults`
(include/revng/ABIAnalyses/ABIAnalysis.h). -/
structure CallSiteResults where
  Arguments : RegisterStateMap
  ReturnValues : RegisterStateMap
deriving DecidableEq

/-- `ABIAnalyses::ABIAnalysesResults`
(include/revng/ABIAnalyses/ABIAnalysis.h): final per-function arguments,
per-call-site results keyed by the call site's `MetaAddress` (modelled as
`Nat`), and per-function return values. -/
structure ABIAnalysesResults where
  Arguments : RegisterStateMap
  CallSites : List (Nat × CallSiteResults)
  ReturnValues : RegisterStateMap
deriving DecidableEq

/-- One instruction of the outlined function, as far as
`analyzeOutlinedFunction`'s loop inspects it: a `CallInst` (with the
called function and the `MetaAddress` constant of argument 0), a
`ReturnInst`, or anything else. -/
inductive Instr where
  | call (calledFunction : Nat) (pc : Nat)
  | ret
  | other
deriving DecidableEq

/-- The six per-block analyses invoked by `analyzeOutlinedFunction`.
Their implementations (`UsedArgumentsOfFunction::analyze` and friends,
in lib/ABIAnalyses/Analyses.h) are outside the embedded sources, so each
is an abstract function from a basic block to a `RegisterStateMap`; the
`GeneratedCodeBasicInfo` argument is fixed and folded into them. -/
structure BlockAnalyses where
  UsedArgumentsOfFunction : Nat → RegisterStateMap
  DeadRegisterArgumentsOfFunction : Nat → RegisterStateMap
  UsedReturnValuesOfFunctionCall : Nat → RegisterStateMap
  RegisterArgumentsOfFunctionCall : Nat → RegisterStateMap
  DeadReturnValuesOfFunctionCall : Nat → RegisterStateMap
  UsedReturnValuesOfFunction : Nat → RegisterStateMap

/-- `ABIAnalyses::PartialAnalysisResults` (src/unnamed/part_000, lines
139-157).  The per-call-site maps are keyed by
`std::pair<MetaAddress, BasicBlock *>`. -/
structure PartialAnalysisResults where
  UAOF : RegisterStateMap
  DRAOF : RegisterStateMap
  URVOFC : List ((Nat × Nat) × RegisterStateMap)
  RAOFC : List ((Nat × Nat) × RegisterStateMap)
  DRVOFC : List ((Nat × Nat) × RegisterStateMap)
  URVOF : RegisterStateMap

/-- `M[k] = v` on a C++ map modelled as an association list: overwrite the
entry when the key is present, append it otherwise. -/
def mapAssign {α β : Type} [DecidableEq α] (L : List (α × β)) (k : α)
    (v : β) : List (α × β) :=
  if (L.lookup k).isSome then
    L.map (fun p => if p.1 = k then (k, v) else p)
  else
    L ++ [(k, v)]

/-- The body of the loop `for (auto &I : instructions(F))` of
`analyzeOutlinedFunction` (src/unnamed/part_000, lines 323-343): a call to
`CallSiteHook` records the three per-call-site analyses of its block under
key `(PC, BB)`, and every `ReturnInst` overwrites `Results.URVOF` with the
`UsedReturnValuesOfFunction` analysis of its block.  The instruction comes
paired with its parent basic block. -/
def processInstr (A : BlockAnalyses) (CallSiteHook : Nat)
    (Results : PartialAnalysisResults) (p : Nat × Instr) :
    PartialAnalysisResults :=
  match p with
  | (BB, .call called pc) =>
    if called = CallSiteHook then
      { Results with
        URVOFC := mapAssign Results.URVOFC (pc, BB)
                    (A.UsedReturnValuesOfFunctionCall BB)
        RAOFC := mapAssign Results.RAOFC (pc, BB)
                    (A.RegisterArgumentsOfFunctionCall BB)
        DRVOFC := mapAssign Results.DRVOFC (pc, BB)
                    (A.DeadReturnValuesOfFunctionCall BB) }
    else
      Results
  | (BB, .ret) => { Results with URVOF := A.UsedReturnValuesOfFunction BB }
  | (_, .other) => Results

/-- The loop over `instructions(F)` itself, folding `processInstr` over
the instruction stream. -/
def processInstructions (A : BlockAnalyses) (CallSiteHook : Nat)
    (insts : List (Nat × Instr)) (init : PartialAnalysisResults) :
    PartialAnalysisResults :=
  insts.foldl (processInstr A CallSiteHook) init

/-- Lookup with the `RegisterState::Maybe` default used when
`zipmap_range` produces a null side (src/unnamed/part_000, lines 354-355
and 377-379). -/
def valueOrMaybe (L : RegisterStateMap) (k : Nat) : RegisterState :=
  match L.lookup k with
  | some v => v
  | none => RegisterState.Maybe

/-- The key set traversed by `zipmap_range(L, R)`: every key of either
map, each once (modelled in first-occurrence order). -/
def mergedKeys (L R : RegisterStateMap) : List Nat :=
  (L.map Prod.fst ++ R.map Prod.fst).dedup

/-- One `zipmap_range(L, R)` finalization loop (src/unnamed/part_000,
lines 352-357 and 374-381): for every key of either map, `combine` the two
values, absent sides defaulting to `Maybe`; an abort inside `combine`
aborts the whole loop. -/
def combineEntries (L R : RegisterStateMap) : List Nat → Option RegisterStateMap
  | [] => some []
  | k :: ks => do
    let v ← combine (valueOrMaybe L k) (valueOrMaybe R k)
    let rest ← combineEntries L R ks
    pure ((k, v) :: rest)

/-- The whole `zipmap_range` loop: `combineEntries` over the merged key
set. -/
def combinePointwise (L R : RegisterStateMap) : Option RegisterStateMap :=
  combineEntries L R (mergedKeys L R)

/-- `FinalResults.CallSites[PC]`: `operator[]` default-constructs an empty
`CallSiteResults` for an absent key. -/
def getCallSite (cs : List (Nat × CallSiteResults)) (pc : Nat) :
    CallSiteResults :=
  match cs.lookup pc with
  | some r => r
  | none => { Arguments := [], ReturnValues := [] }

/-- The `// Add RAOFC.` loop (src/unnamed/part_000, lines 360-368):
`FinalResults.CallSites[PC].Arguments[CSV] = RS` for every entry of every
per-call-site map. -/
def addRAOFC (raofc : List ((Nat × Nat) × RegisterStateMap))
    (cs : List (Nat × CallSiteResults)) : List (Nat × CallSiteResults) :=
  raofc.foldl (fun cs entry =>
    let pc := entry.1.1
    entry.2.foldl (fun cs rs =>
      let old := getCallSite cs pc
      mapAssign cs pc { old with Arguments := mapAssign old.Arguments rs.1 rs.2 })
      cs) cs

/-- The `// Combine URVOFC and DRVOFC.` loop (src/unnamed/part_000, lines
371-382): for every call-site key of `URVOFC`, combine its map pointwise
with the same key's `DRVOFC` map (absent key giving the empty map, as
`operator[]` would) into `CallSites[PC].ReturnValues`. -/
def combineURVOFCandDRVOFC (urvofc drvofc : List ((Nat × Nat) × RegisterStateMap))
    (cs : List (Nat × CallSiteResults)) : Option (List (Nat × CallSiteResults)) :=
  urvofc.foldlM (fun cs entry => do
    let key := entry.1
    let pc := key.1
    let left := match urvofc.lookup key with
      | some m => m
      | none => []
    let right := match drvofc.lookup key with
      | some m => m
      | none => []
    let combined ← combinePointwise left right
    let old := getCallSite cs pc
    pure (mapAssign cs pc
      { old with
        ReturnValues := combined.foldl
          (fun acc kv => mapAssign acc kv.1 kv.2) old.ReturnValues })) cs

/-- The initial population of partial results (src/unnamed/part_000,
lines 319-322): `UAOF` and `DRAOF` are the two whole-function analyses of
the entry block, everything else starts empty.  In the C++ this is the
state of `Results` before the instruction loop; `analyzeOutlinedFunction`
below continues from it with the six per-block analyses abstract, the
outlined function given as its entry block plus its instruction stream,
and `revng_abort` (reached only through `combine`) embedded as `none`. -/
def initialResults (A : BlockAnalyses) (entryBlock : Nat) :
    PartialAnalysisResults :=
  { UAOF := A.UsedArgumentsOfFunction entryBlock
    DRAOF := A.DeadRegisterArgumentsOfFunction entryBlock
    URVOFC := [], RAOFC := [], DRVOFC := [], URVOF := [] }

/-- `ABIAnalyses::analyzeOutlinedFunction` (src/unnamed/part_000, lines
313-388), continued: run the instruction loop from the initial
population, then finalize. -/
def analyzeOutlinedFunction (A : BlockAnalyses) (CallSiteHook : Nat)
    (entryBlock : Nat) (insts : List (Nat × Instr)) :
    Option ABIAnalysesResults := do
  let Results := processInstructions A CallSiteHook insts
    (initialResults A entryBlock)
  let args ← combinePointwise Results.UAOF Results.DRAOF
  let cs := addRAOFC Results.RAOFC []
  let cs ← combineURVOFCandDRVOFC Results.URVOFC Results.DRVOFC cs
  pure { Arguments := args, CallSites := cs, ReturnValues := Results.URVOF }

/-- Step function of `lastReturnBlock`: a `ReturnInst` replaces the
accumulator with its parent block, anything else keeps it. -/
def retStep (acc : Option Nat) (p : Nat × Instr) : Option Nat :=
  match p with
  | (_, .ret) => some p.1
  | _ => acc

/-- The basic block of the last `ReturnInst` in instruction-iteration
order, if any. -/
def lastReturnBlock (insts : List (Nat × Instr)) : Option Nat :=
  insts.foldl retStep none

end ABIAnalyses

namespace ABIAnalyses

open RegisterState

/-- Claim C1: for every pair of operands drawn from the seven non-Invalid
lattice values, `combine` returns (without aborting) exactly the value
tabulated in spec section 4.1, row by row. -/
theorem combine_implements_spec_table :
    ∀ a b : RegisterState, a ≠ Invalid → b ≠ Invalid →
      combine a b = some (combineSpecTable a b) := by decide

/-- Concrete instance of `combine_implements_spec_table`. -/
theorem combine_implements_spec_table_witness :
    combine Yes YesOrDead = some (combineSpecTable Yes YesOrDead) :=
  combine_implements_spec_table Yes YesOrDead (by decide) (by decide)

/-- Claim C2: over the seven non-Invalid lattice values, `combine` is
commutative and associative and `Maybe` is a two-sided identity. -/
theorem combine_comm_assoc_maybe_identity :
    ∀ a b c : RegisterState, a ≠ Invalid → b ≠ Invalid → c ≠ Invalid →
      combine a b = combine b a ∧
      (combine b c).bind (combine a) =
        (combine a b).bind (fun x => combine x c) ∧
      combine Maybe a = some a ∧ combine a Maybe = some a := by decide

/-- Concrete instance of `combine_comm_assoc_maybe_identity`. -/
theorem combine_comm_assoc_maybe_identity_witness :
    combine Yes NoOrDead = combine NoOrDead Yes ∧
    (combine NoOrDead Dead).bind (combine Yes) =
      (combine Yes NoOrDead).bind (fun x => combine x Dead) ∧
    combine Maybe Yes = some Yes ∧ combine Yes Maybe = some Yes :=
  combine_comm_assoc_maybe_identity Yes NoOrDead Dead
    (by decide) (by decide) (by decide)

/-- Claim C3: `Contradiction` is absorbing for `combine` on every
non-Invalid operand, on both sides. -/
theorem combine_contradiction_absorbing :
    ∀ a : RegisterState, a ≠ Invalid →
      combine Contradiction a = some Contradiction ∧
      combine a Contradiction = some Contradiction := by decide

/-- Concrete instance of `combine_contradiction_absorbing`. -/
theorem combine_contradiction_absorbing_witness :
    combine Contradiction YesOrDead = some Contradiction ∧
    combine YesOrDead Contradiction = some Contradiction :=
  combine_contradiction_absorbing YesOrDead (by decide)

/-- Counterexample to claim C4: `combine(Maybe, Invalid)` does not abort;
the C++ `Maybe` row returns `RH` without inspecting it, so the call
returns `Invalid` itself. -/
theorem combine_maybe_invalid_returns :
    combine Maybe Invalid = some Invalid := by decide

/-- Claim C4 amended: `combine` aborts whenever the left operand is
`Invalid`, and whenever the right operand is `Invalid` while the left is
one of `{No, NoOrDead, Dead, Yes, YesOrDead}`; but with left operand
`Maybe` it returns the `Invalid` right operand unchanged, and with left
operand `Contradiction` it returns `Contradiction`. -/
theorem combine_invalid_abort_amended :
    ∀ a b : RegisterState,
      (a = Invalid → combine a b = none) ∧
      (b = Invalid → a ≠ Maybe → a ≠ Contradiction → combine a b = none) ∧
      combine Maybe Invalid = some Invalid ∧
      combine Contradiction Invalid = some Contradiction := by decide

/-- Concrete instance of `combine_invalid_abort_amended`. -/
theorem combine_invalid_abort_amended_witness :
    combine Invalid No = none ∧ combine Yes Invalid = none :=
  ⟨(combine_invalid_abort_amended Invalid No).1 rfl,
   (combine_invalid_abort_amended Yes Invalid).2.1 rfl
     (by decide) (by decide)⟩

end ABIAnalyses

namespace StackAnalysis

/-- A default summary used by the concrete oracle instances below. -/
def exDefaultSummary : FunctionSummary :=
  { type := FunctionType.Invalid, clobberedRegisters := ∅, result := [],
    electedFSO := none, fakeFunction := none }

/-- A stored summary with type `NoReturn` and no clobbered registers. -/
def exOldNoReturn : FunctionSummary :=
  { type := FunctionType.NoReturn, clobberedRegisters := ∅, result := [],
    electedFSO := none, fakeFunction := none }

/-- A candidate summary with type `Regular` and no clobbered registers. -/
def exNewRegular : FunctionSummary :=
  { type := FunctionType.Regular, clobberedRegisters := ∅, result := [],
    electedFSO := none, fakeFunction := none }

/-- An oracle whose bucket holds `exOldNoReturn` for entry point `0`. -/
def exOracleNoReturn : FunctionAnalysisResults :=
  { functionsBucket := [(0, exOldNoReturn)],
    defaultSummary := exDefaultSummary }

/-- Counterexample to claim C5: for stored summary `exOldNoReturn`
(type `NoReturn`) and candidate `exNewRegular` (type `Regular`), the
candidate's type differs from the stored one — so the claim predicts
acceptance — yet `registerFunction` reports convergence (`false`),
because `compare` accepts any `New.Type <= Old.Type` as subsuming. -/
theorem registerFunction_type_differs_not_accepted :
    exNewRegular.type ≠ exOldNoReturn.type ∧
    (exOracleNoReturn.registerFunction 0 exNewRegular).1 = false := by decide

/-- Helper: the exact acceptance condition of `registerFunction` when the
bucket already holds a summary for the entry point. -/
theorem registerFunction_ret_true_iff_aux
    (R : FunctionAnalysisResults) (BB : Nat) (Old New : FunctionSummary)
    (h : R.functionsBucket.lookup BB = some Old) :
    (R.registerFunction BB New).1 = true ↔
      ((New.type = Old.type ∧
          ¬ New.clobberedRegisters ⊆ Old.clobberedRegisters) ∨
        (New.type ≠ Old.type ∧ Old.type.toNat < New.type.toNat)) := by
  unfold FunctionAnalysisResults.registerFunction
  rw [h]
  simp only [FunctionSummary.compare, FunctionType.le]
  by_cases ht : New.type = Old.type
  · simp [ht]
  · simp [ht]

/-- Claim C5 amended: with a stored summary `Old` for the entry point,
`registerFunction` reports the candidate `New` accepted (returns true)
exactly when the types are equal and `New`'s ClobberedRegisters is not a
subset of `Old`'s, or the types differ and `New`'s type is strictly
greater in enumerator order. -/
theorem registerFunction_accept_iff
    (R : FunctionAnalysisResults) (BB : Nat) (Old New : FunctionSummary)
    (h : R.functionsBucket.lookup BB = some Old) :
    (R.registerFunction BB New).1 = true ↔
      ((New.type = Old.type ∧
          ¬ New.clobberedRegisters ⊆ Old.clobberedRegisters) ∨
        (New.type ≠ Old.type ∧ Old.type.toNat < New.type.toNat)) :=
  registerFunction_ret_true_iff_aux R BB Old New h

/-- Concrete instance of `registerFunction_accept_iff`: a candidate of
strictly greater type is accepted. -/
theorem registerFunction_accept_iff_witness :
    (({ functionsBucket := [(0, exNewRegular)],
        defaultSummary := exDefaultSummary } :
          FunctionAnalysisResults).registerFunction 0 exOldNoReturn).1
        = true ↔
      ((exOldNoReturn.type = exNewRegular.type ∧
          ¬ exOldNoReturn.clobberedRegisters ⊆
              exNewRegular.clobberedRegisters) ∨
        (exOldNoReturn.type ≠ exNewRegular.type ∧
          exNewRegular.type.toNat < exOldNoReturn.type.toNat)) :=
  registerFunction_accept_iff _ 0 exNewRegular exOldNoReturn rfl

end StackAnalysis

namespace StackAnalysis

/-- A stored summary of type `Regular` clobbering registers 0 and 1. -/
def exOldClob01 : FunctionSummary :=
  { type := FunctionType.Regular, clobberedRegisters := {0, 1}, result := [],
    electedFSO := none, fakeFunction := none }

/-- A candidate summary of type `Regular` clobbering only register 0,
hence subsumed by `exOldClob01` under the monotonicity check. -/
def exNewClob0 : FunctionSummary :=
  { type := FunctionType.Regular, clobberedRegisters := {0}, result := [],
    electedFSO := none, fakeFunction := none }

/-- An oracle whose bucket holds `exOldClob01` for entry point `0`. -/
def exOracleClob01 : FunctionAnalysisResults :=
  { functionsBucket := [(0, exOldClob01)],
    defaultSummary := exDefaultSummary }

/-- Counterexample to claim C6: the candidate `exNewClob0` is subsumed by
the stored `exOldClob01` (registerFunction reports convergence), yet the
stored summary is overwritten anyway: `getRegistersClobbered` afterwards
no longer returns the old clobber set. -/
theorem registerFunction_subsumed_still_overwrites :
    (exOracleClob01.registerFunction 0 exNewClob0).1 = false ∧
    (exOracleClob01.registerFunction 0 exNewClob0).2.getRegistersClobbered 0
        ≠ exOracleClob01.getRegistersClobbered 0 := by decide

/-- After overwriting the first entry for `BB`, looking `BB` up finds the
new summary. -/
theorem lookup_assignExisting
    (L : List (Nat × FunctionSummary)) (BB : Nat) (F : FunctionSummary)
    (h : (L.lookup BB).isSome) :
    (FunctionAnalysisResults.assignExisting L BB F).lookup BB = some F := by
  induction L with
  | nil => simp [List.lookup] at h
  | cons p rest ih =>
    obtain ⟨k, v⟩ := p
    by_cases hp : k = BB
    · subst hp
      simp only [FunctionAnalysisResults.assignExisting, List.map_cons]
      simp [List.lookup]
    · have hne : (BB == k) = false := by
        simp only [beq_eq_false_iff_ne]
        exact fun hEq => hp hEq.symm
      simp only [FunctionAnalysisResults.assignExisting, List.map_cons] at ih ⊢
      rw [if_neg hp]
      simp only [List.lookup, hne] at h ⊢
      exact ih h

/-- Claim C6 amended: `registerFunction` always replaces the stored
summary with the candidate, whether or not the candidate is subsumed by
the old one; the monotonicity check only determines the returned
convergence flag.  Hence every subsequent query via `get` returns the
candidate's data. -/
theorem registerFunction_always_overwrites
    (R : FunctionAnalysisResults) (BB : Nat) (F : FunctionSummary) :
    ((R.registerFunction BB F).2).get BB = F := by
  unfold FunctionAnalysisResults.registerFunction
  cases hL : R.functionsBucket.lookup BB with
  | some Old =>
    have h : (R.functionsBucket.lookup BB).isSome := by rw [hL]; rfl
    simp [FunctionAnalysisResults.get, lookup_assignExisting _ _ _ h]
  | none =>
    simp [FunctionAnalysisResults.get, List.lookup]

end StackAnalysis

namespace StackAnalysis

/-- A stored summary of type `Regular` clobbering only register 1. -/
def exOldClob1 : FunctionSummary :=
  { type := FunctionType.Regular, clobberedRegisters := {1}, result := [],
    electedFSO := none, fakeFunction := none }

/-- An oracle whose bucket holds `exOldClob1` for entry point `0`. -/
def exOracleClob1 : FunctionAnalysisResults :=
  { functionsBucket := [(0, exOldClob1)],
    defaultSummary := exDefaultSummary }

/-- Counterexample to claim C7: from stored summary `exOldClob1`
(type `Regular`, clobbering `{1}`), the candidate `exNewClob0`
(type `Regular`, clobbering `{0}`) is accepted — `registerFunction`
returns true — yet the stored clobber set decreases in set-inclusion
order (`{0}` does not contain `{1}`) while the type does not change. -/
theorem registerFunction_accepted_clobber_decreases :
    (exOracleClob1.registerFunction 0 exNewClob0).1 = true ∧
    ¬ exOldClob1.clobberedRegisters ⊆ exNewClob0.clobberedRegisters ∧
    exNewClob0.type = exOldClob1.type := by decide

/-- Claim C7 amended: across successive accepted summaries for the same
entry point, either the stored type strictly increases in enumerator
order — in particular an accepted candidate never takes a stored
`NoReturn` back to `Regular` — or the type is unchanged and the candidate
clobber set is not a subset of the stored one (it need not contain it). -/
theorem registerFunction_accepted_progress
    (R : FunctionAnalysisResults) (BB : Nat) (Old New : FunctionSummary)
    (h : R.functionsBucket.lookup BB = some Old)
    (hacc : (R.registerFunction BB New).1 = true) :
    (Old.type.toNat < New.type.toNat ∨
      (New.type = Old.type ∧
        ¬ New.clobberedRegisters ⊆ Old.clobberedRegisters)) ∧
    ¬ (Old.type = FunctionType.NoReturn ∧
        New.type = FunctionType.Regular) := by
  have hiff := registerFunction_ret_true_iff_aux R BB Old New h
  rw [hacc] at hiff
  have hcond := hiff.mp rfl
  constructor
  · rcases hcond with ⟨ht, hsub⟩ | ⟨_, hlt⟩
    · exact Or.inr ⟨ht, hsub⟩
    · exact Or.inl hlt
  · rintro ⟨hOld, hNew⟩
    rcases hcond with ⟨ht, _⟩ | ⟨_, hlt⟩
    · rw [hOld, hNew] at ht
      exact absurd ht (by decide)
    · rw [hOld, hNew] at hlt
      exact absurd hlt (by decide)

/-- Concrete instance of `registerFunction_accepted_progress`, at the
accepted step of `registerFunction_accepted_clobber_decreases`. -/
theorem registerFunction_accepted_progress_witness :
    (exOldClob1.type.toNat < exNewClob0.type.toNat ∨
      (exNewClob0.type = exOldClob1.type ∧
        ¬ exNewClob0.clobberedRegisters ⊆ exOldClob1.clobberedRegisters)) ∧
    ¬ (exOldClob1.type = FunctionType.NoReturn ∧
        exNewClob0.type = FunctionType.Regular) :=
  registerFunction_accepted_progress exOracleClob1 0 exOldClob1 exNewClob0
    rfl (by decide)

/-- Claim C9: for an entry point with no registered summary, every query
on `FunctionAnalysisResults` returns the corresponding field of the
`DefaultSummary` supplied at construction (and, the queries being total
functions, none of them can abort). -/
theorem queries_default_on_missing
    (R : FunctionAnalysisResults) (BB : Nat)
    (h : R.functionsBucket.lookup BB = none) :
    R.getFunctionType BB = R.defaultSummary.type ∧
    R.getRegistersClobbered BB = R.defaultSummary.clobberedRegisters ∧
    R.getElectedFSO BB = R.defaultSummary.electedFSO ∧
    R.getFakeFunction BB = R.defaultSummary.fakeFunction ∧
    R.isFakeFunction BB = decide (R.defaultSummary.type = FunctionType.Fake)
    := by
  have hget : R.get BB = R.defaultSummary := by
    unfold FunctionAnalysisResults.get
    rw [h]
  refine ⟨?_, ?_, ?_, ?_, ?_⟩ <;>
    simp [FunctionAnalysisResults.getFunctionType,
      FunctionAnalysisResults.getRegistersClobbered,
      FunctionAnalysisResults.getElectedFSO,
      FunctionAnalysisResults.getFakeFunction,
      FunctionAnalysisResults.isFakeFunction, hget]

/-- Concrete instance of `queries_default_on_missing`: the oracle
`exOracleClob1` holds nothing for entry point `7`. -/
theorem queries_default_on_missing_witness :
    exOracleClob1.getFunctionType 7 = exOracleClob1.defaultSummary.type ∧
    exOracleClob1.getRegistersClobbered 7
        = exOracleClob1.defaultSummary.clobberedRegisters ∧
    exOracleClob1.getElectedFSO 7
        = exOracleClob1.defaultSummary.electedFSO ∧
    exOracleClob1.getFakeFunction 7
        = exOracleClob1.defaultSummary.fakeFunction ∧
    exOracleClob1.isFakeFunction 7
        = decide (exOracleClob1.defaultSummary.type = FunctionType.Fake) :=
  queries_default_on_missing exOracleClob1 7 rfl

end StackAnalysis

namespace ABIAnalyses

/-- One loop step never touches the `UAOF` and `DRAOF` fields. -/
theorem processInstr_UAOF_DRAOF (A : BlockAnalyses) (hook : Nat)
    (R : PartialAnalysisResults) (p : Nat × Instr) :
    (processInstr A hook R p).UAOF = R.UAOF ∧
    (processInstr A hook R p).DRAOF = R.DRAOF := by
  obtain ⟨BB, i⟩ := p
  cases i with
  | call c pc =>
    by_cases h : c = hook <;> simp [processInstr, h]
  | ret => exact ⟨rfl, rfl⟩
  | other => exact ⟨rfl, rfl⟩

/-- The instruction loop never touches the `UAOF` and `DRAOF` fields. -/
theorem processInstructions_UAOF_DRAOF (A : BlockAnalyses) (hook : Nat) :
    ∀ (insts : List (Nat × Instr)) (init : PartialAnalysisResults),
      (processInstructions A hook insts init).UAOF = init.UAOF ∧
      (processInstructions A hook insts init).DRAOF = init.DRAOF := by
  intro insts
  induction insts with
  | nil => intro init; exact ⟨rfl, rfl⟩
  | cons p rest ih =>
    intro init
    have hstep := processInstr_UAOF_DRAOF A hook init p
    have hrest := ih (processInstr A hook init p)
    exact ⟨hrest.1.trans hstep.1, hrest.2.trans hstep.2⟩

/-- Once the accumulator of `retStep` is set it never becomes empty
again. -/
theorem foldl_retStep_isSome :
    ∀ (insts : List (Nat × Instr)) (b : Nat),
      (insts.foldl retStep (some b)).isSome = true := by
  intro insts
  induction insts with
  | nil => intro b; rfl
  | cons p rest ih =>
    intro b
    obtain ⟨BB, i⟩ := p
    cases i with
    | call c pc => exact ih b
    | ret => exact ih BB
    | other => exact ih b

/-- The `URVOF` field after the instruction loop is the
`UsedReturnValuesOfFunction` analysis of the block recorded by the last
`ReturnInst`, or the initial value when no `ReturnInst` was seen. -/
theorem processInstructions_URVOF_aux (A : BlockAnalyses) (hook : Nat) :
    ∀ (insts : List (Nat × Instr)) (init : PartialAnalysisResults)
      (acc : Option Nat),
      (∀ b, acc = some b →
        init.URVOF = A.UsedReturnValuesOfFunction b) →
      (processInstructions A hook insts init).URVOF =
        match insts.foldl retStep acc with
        | some b => A.UsedReturnValuesOfFunction b
        | none => init.URVOF := by
  intro insts
  induction insts with
  | nil =>
    intro init acc hacc
    cases acc with
    | none => rfl
    | some b => exact hacc b rfl
  | cons p rest ih =>
    intro init acc hacc
    obtain ⟨BB, i⟩ := p
    cases i with
    | ret =>
      have h2 := ih (processInstr A hook init (BB, Instr.ret)) (some BB)
        (by intro b hb; cases hb; rfl)
      have hs := foldl_retStep_isSome rest BB
      cases hfb : rest.foldl retStep (some BB) with
      | none =>
        rw [hfb] at hs
        exact absurd hs (by decide)
      | some b' =>
        rw [hfb] at h2
        show (processInstructions A hook rest
            (processInstr A hook init (BB, Instr.ret))).URVOF =
          match rest.foldl retStep (some BB) with
          | some b => A.UsedReturnValuesOfFunction b
          | none => init.URVOF
        rw [hfb]
        exact h2
    | call c pc =>
      have hUn :
          (processInstr A hook init (BB, Instr.call c pc)).URVOF
            = init.URVOF := by
        by_cases h : c = hook <;> simp [processInstr, h]
      have h2 := ih (processInstr A hook init (BB, Instr.call c pc)) acc
        (by intro b hb; rw [hUn]; exact hacc b hb)
      show (processInstructions A hook rest
          (processInstr A hook init (BB, Instr.call c pc))).URVOF =
        match rest.foldl retStep acc with
        | some b => A.UsedReturnValuesOfFunction b
        | none => init.URVOF
      rw [h2, hUn]
    | other => exact ih init acc hacc

/-- Looking up a merged key in the result of `combineEntries` yields the
`combine` of the two sides' values. -/
theorem combineEntries_lookup (L R : RegisterStateMap) :
    ∀ (ks : List Nat) (m : RegisterStateMap),
      combineEntries L R ks = some m →
      ∀ k ∈ ks, m.lookup k =
        combine (valueOrMaybe L k) (valueOrMaybe R k) := by
  intro ks
  induction ks with
  | nil =>
    intro m hm k hk
    exact absurd hk (List.not_mem_nil k)
  | cons k' ks' ih =>
    intro m hm k hk
    have hcons : combineEntries L R (k' :: ks') =
        Option.bind (combine (valueOrMaybe L k') (valueOrMaybe R k'))
          (fun v => Option.bind (combineEntries L R ks')
            (fun rest => some ((k', v) :: rest))) := rfl
    rw [hcons, Option.bind_eq_some] at hm
    obtain ⟨v, hv, hm⟩ := hm
    rw [Option.bind_eq_some] at hm
    obtain ⟨rest, hrest, hm⟩ := hm
    injection hm with hm
    by_cases hkk : k = k'
    · subst hkk
      rw [← hm]
      simp [List.lookup]
      exact hv.symm
    · have hk' : k ∈ ks' := by
        rcases List.mem_cons.mp hk with h | h
        · exact absurd h hkk
        · exact h
      have hne : (k == k') = false := beq_eq_false_iff_ne.mpr hkk
      rw [← hm]
      simp only [List.lookup, hne]
      exact ih rest hrest k hk'

end ABIAnalyses

namespace ABIAnalyses

/-- Unfolding of `analyzeOutlinedFunction` into its monadic spine. -/
theorem analyzeOutlinedFunction_eq (A : BlockAnalyses) (hook entry : Nat)
    (insts : List (Nat × Instr)) :
    analyzeOutlinedFunction A hook entry insts =
      Option.bind
        (combinePointwise
          (processInstructions A hook insts (initialResults A entry)).UAOF
          (processInstructions A hook insts (initialResults A entry)).DRAOF)
        (fun args =>
          Option.bind
            (combineURVOFCandDRVOFC
              (processInstructions A hook insts
                (initialResults A entry)).URVOFC
              (processInstructions A hook insts
                (initialResults A entry)).DRVOFC
              (addRAOFC
                (processInstructions A hook insts
                  (initialResults A entry)).RAOFC
                []))
            (fun cs =>
              some { Arguments := args, CallSites := cs,
                     ReturnValues :=
                       (processInstructions A hook insts
                         (initialResults A entry)).URVOF })) := rfl

/-- Claim C8: in the result of `analyzeOutlinedFunction`, for every
register present in the `UsedArgumentsOfFunction` or the
`DeadRegisterArgumentsOfFunction` map of the entry block, the
`Arguments` entry is the `combine` of the register's two values, a
missing side defaulting to `Maybe`. -/
theorem analyzeOutlinedFunction_arguments_pointwise
    (A : BlockAnalyses) (hook entry : Nat) (insts : List (Nat × Instr))
    (res : ABIAnalysesResults) (reg : Nat)
    (hres : analyzeOutlinedFunction A hook entry insts = some res)
    (hreg : reg ∈ (A.UsedArgumentsOfFunction entry).map Prod.fst ∨
            reg ∈ (A.DeadRegisterArgumentsOfFunction entry).map Prod.fst) :
    res.Arguments.lookup reg =
      combine (valueOrMaybe (A.UsedArgumentsOfFunction entry) reg)
              (valueOrMaybe (A.DeadRegisterArgumentsOfFunction entry) reg)
    := by
  rw [analyzeOutlinedFunction_eq, Option.bind_eq_some] at hres
  obtain ⟨args, hargs, hres⟩ := hres
  rw [Option.bind_eq_some] at hres
  obtain ⟨cs, hcs, hres⟩ := hres
  injection hres with hres
  subst hres
  have hUD := processInstructions_UAOF_DRAOF A hook insts
    (initialResults A entry)
  rw [hUD.1, hUD.2] at hargs
  have hmem : reg ∈ mergedKeys (A.UsedArgumentsOfFunction entry)
      (A.DeadRegisterArgumentsOfFunction entry) := by
    unfold mergedKeys
    rw [List.mem_dedup, List.mem_append]
    exact hreg
  exact combineEntries_lookup _ _ _ args hargs reg hmem

/-- Claim C10: when the outlined function's instruction stream has at
least one `ReturnInst` — in particular when it has several — the
`ReturnValues` map of `analyzeOutlinedFunction`'s result is the
`UsedReturnValuesOfFunction` analysis of the block of the last
`ReturnInst` in instruction-iteration order alone: each `ReturnInst`
overwrites `Results.URVOF`, so the per-return results of earlier
returns are discarded, not combined. -/
theorem analyzeOutlinedFunction_returnValues_lastRet
    (A : BlockAnalyses) (hook entry : Nat) (insts : List (Nat × Instr))
    (res : ABIAnalysesResults) (bb : Nat)
    (hres : analyzeOutlinedFunction A hook entry insts = some res)
    (hlast : lastReturnBlock insts = some bb) :
    res.ReturnValues = A.UsedReturnValuesOfFunction bb := by
  rw [analyzeOutlinedFunction_eq, Option.bind_eq_some] at hres
  obtain ⟨args, hargs, hres⟩ := hres
  rw [Option.bind_eq_some] at hres
  obtain ⟨cs, hcs, hres⟩ := hres
  injection hres with hres
  subst hres
  have hURVOF := processInstructions_URVOF_aux A hook insts
    (initialResults A entry) none (by intro b hb; cases hb)
  show (processInstructions A hook insts (initialResults A entry)).URVOF = _
  rw [hURVOF]
  unfold lastReturnBlock at hlast
  rw [hlast]

/-- Concrete per-block analyses for the witnesses below: the entry block
uses register 0 (`Yes`) and finds register 1 dead on entry
(`NoOrDead`); the per-return analysis reports the block's own number as
a returned register. -/
def exAnalyses : BlockAnalyses :=
  { UsedArgumentsOfFunction := fun _ => [(0, RegisterState.Yes)]
    DeadRegisterArgumentsOfFunction := fun _ => [(1, RegisterState.NoOrDead)]
    UsedReturnValuesOfFunctionCall := fun _ => []
    RegisterArgumentsOfFunctionCall := fun _ => []
    DeadReturnValuesOfFunctionCall := fun _ => []
    UsedReturnValuesOfFunction := fun bb => [(bb, RegisterState.Yes)] }

/-- An instruction stream with two `ReturnInst`s, in blocks 1 and 2. -/
def exInsts : List (Nat × Instr) := [(1, Instr.ret), (2, Instr.ret)]

/-- Concrete instance of `analyzeOutlinedFunction_arguments_pointwise`. -/
theorem analyzeOutlinedFunction_arguments_pointwise_witness :
    (({ Arguments := [(0, RegisterState.Yes), (1, RegisterState.NoOrDead)],
        CallSites := [], ReturnValues := [] } :
          ABIAnalysesResults)).Arguments.lookup 0 =
      combine (valueOrMaybe (exAnalyses.UsedArgumentsOfFunction 0) 0)
              (valueOrMaybe (exAnalyses.DeadRegisterArgumentsOfFunction 0) 0)
    :=
  analyzeOutlinedFunction_arguments_pointwise exAnalyses 9 0 []
    { Arguments := [(0, RegisterState.Yes), (1, RegisterState.NoOrDead)],
      CallSites := [], ReturnValues := [] } 0 (by decide)
    (Or.inl (by decide))

/-- Concrete instance of `analyzeOutlinedFunction_returnValues_lastRet`:
with returns in blocks 1 and 2, only block 2's analysis survives. -/
theorem analyzeOutlinedFunction_returnValues_lastRet_witness :
    (({ Arguments := [(0, RegisterState.Yes), (1, RegisterState.NoOrDead)],
        CallSites := [],
        ReturnValues := [(2, RegisterState.Yes)] } :
          ABIAnalysesResults)).ReturnValues
      = exAnalyses.UsedReturnValuesOfFunction 2 :=
  analyzeOutlinedFunction_returnValues_lastRet exAnalyses 9 0 exInsts
    { Arguments := [(0, RegisterState.Yes), (1, RegisterState.NoOrDead)],
      CallSites := [],
      ReturnValues := [(2, RegisterState.Yes)] } 2 (by decide) (by decide)

end ABIAnalyses
